import Mathlib

/-!
Verification of the semantic extraction and composition engine of
`ast2llm-go` against its natural-language specification.

The Go sources are shallowly embedded: the data model of
`internal/types/types.go`, the composer of `internal/composer`
(`project_composer.go`, `format_struct.go`, `format_global_var.go` and the
function formatter), the project parser (`project_parser.go`, newest
revision), and the dependency-graph builder (`graph_builder.go`).
Go maps are embedded as association lists; `m[k] = v` is modelled by
`mapAssign` (most recent binding wins on lookup, like a Go map write) and
the guarded `if _, exists := m[k]; !exists { m[k] = v }` idiom of the
extractors by `mapPutNew` (first write wins, insertion order kept).
Go map iteration order is not specified; where a claim depends on it the
iteration is modelled as an arbitrary permutation of the entries.
-/

namespace Ast2LLM

/-- One struct field, from `types.StructField` (name plus type string). -/
structure StructField where
  name : String
  type : String
deriving DecidableEq, Repr

/-- One struct method, from `types.StructMethod`. -/
structure StructMethod where
  name : String
  comment : String
  parameters : List String
  returnTypes : List String
deriving DecidableEq, Repr

/-- Detailed struct record, from `types.StructInfo`; `name` is the fully
qualified name and identity key. -/
structure StructInfo where
  name : String
  comment : String := ""
  fields : List StructField := []
  methods : List StructMethod := []
deriving DecidableEq, Repr

/-- One interface method, from `types.InterfaceMethod`. -/
structure InterfaceMethod where
  name : String
  comment : String
  parameters : List String
  returnTypes : List String
deriving DecidableEq, Repr

/-- Detailed interface record, from `types.InterfaceInfo`. -/
structure InterfaceInfo where
  name : String
  comment : String := ""
  methods : List InterfaceMethod := []
  embeddeds : List String := []
deriving DecidableEq, Repr

/-- Global variable or constant record, from `types.GlobalVarInfo`. -/
structure GlobalVarInfo where
  name : String
  comment : String := ""
  type : String := ""
  value : String := ""
  isConst : Bool := false
deriving DecidableEq, Repr

/-- Function record, from `types.FunctionInfo`. -/
structure FunctionInfo where
  name : String
  comment : String := ""
  params : List String := []
  returns : List String := []
deriving DecidableEq, Repr

/-- Per-file record, from `types.FileInfo` (newest revision, with global
vars and the three used-imported lists). -/
structure FileInfo where
  packageName : String := ""
  imports : List String := []
  functions : List FunctionInfo := []
  structs : List StructInfo := []
  interfaces : List InterfaceInfo := []
  globalVars : List GlobalVarInfo := []
  usedImportedStructs : List StructInfo := []
  usedImportedFunctions : List FunctionInfo := []
  usedImportedGlobalVars : List GlobalVarInfo := []
deriving DecidableEq, Repr

/-- Package node of the dependency graph, from `types.Node`. -/
structure Node where
  pkgPath : String
  functions : List String := []
  dependsOn : List String := []
  files : List String := []
deriving DecidableEq, Repr

/-- Dependency graph, from `types.DependencyGraph`: a map from package
path to node, embedded as an association list. -/
structure DependencyGraph where
  nodes : List (String × Node)
deriving DecidableEq, Repr

/-- `parser.ProjectInfo`: map from absolute file path to `FileInfo`,
embedded as an association list. -/
abbrev ProjectInfo : Type := List (String × FileInfo)

/-- First-match lookup in an association list (Go map read). -/
def mapFind {α : Type} : List (String × α) → String → Option α
  | [], _ => none
  | (k, v) :: rest, key => if k = key then some v else mapFind rest key

/-- Go map write `m[k] = v`: the new binding shadows any earlier one. -/
def mapAssign {α : Type} (m : List (String × α)) (k : String) (v : α) :
    List (String × α) :=
  (k, v) :: m

/-- The guarded-write idiom `if _, exists := m[k]; !exists { m[k] = v }`
used by the extractors: first write wins, insertion order is kept. -/
def mapPutNew {α : Type} (m : List (String × α)) (k : String) (v : α) :
    List (String × α) :=
  match mapFind m k with
  | some _ => m
  | none => m ++ [(k, v)]

/-- `strings.TrimSpace`: strip leading and trailing whitespace, modelled
over the character list so that it evaluates in the kernel. -/
def trimSpace (s : String) : String :=
  ⟨((s.data.dropWhile Char.isWhitespace).reverse.dropWhile
      Char.isWhitespace).reverse⟩

/-- `strings.Join(xs, ", ")`. -/
def joinComma (xs : List String) : String :=
  String.intercalate ", " xs

/-- `FormatFunction` from the composer: function block with name, optional
comment and a `Signature:` line. -/
def formatFunction (fn : FunctionInfo) (indent : String) : String :=
  indent ++ "Function: " ++ fn.name ++ "\n" ++
  (if fn.comment ≠ "" then indent ++ "  Comment: " ++ fn.comment ++ "\n" else "") ++
  indent ++ "  Signature: (" ++ joinComma fn.params ++ ")" ++
  (if fn.returns ≠ [] then " -> (" ++ joinComma fn.returns ++ ")" else "") ++
  "\n"

/-- One field line of a struct block. -/
def formatStructField (indent : String) (f : StructField) : String :=
  indent ++ "    - " ++ f.name ++ " " ++ f.type ++ "\n"

/-- One method line of a struct block. -/
def formatStructMethod (indent : String) (m : StructMethod) : String :=
  indent ++ "    - " ++ m.name ++ "(" ++ joinComma m.parameters ++ ") (" ++
    joinComma m.returnTypes ++ ")\n" ++
  (if m.comment ≠ "" then indent ++ "      Comment: " ++ m.comment ++ "\n" else "")

/-- `FormatStruct` from `format_struct.go`. -/
def formatStruct (s : StructInfo) (indent : String) : String :=
  indent ++ "Struct: " ++ s.name ++ "\n" ++
  (if s.comment ≠ "" then indent ++ "  Comment: " ++ s.comment ++ "\n" else "") ++
  (if s.fields ≠ [] then
    indent ++ "  Fields:\n" ++ String.join (s.fields.map (formatStructField indent))
   else "") ++
  (if s.methods ≠ [] then
    indent ++ "  Methods:\n" ++ String.join (s.methods.map (formatStructMethod indent))
   else "")

/-- One method line of an interface block. -/
def formatInterfaceMethod (indent : String) (m : InterfaceMethod) : String :=
  indent ++ "    - " ++ m.name ++ "(" ++ joinComma m.parameters ++ ") (" ++
    joinComma m.returnTypes ++ ")\n" ++
  (if m.comment ≠ "" then indent ++ "      Comment: " ++ m.comment ++ "\n" else "")

/-- `FormatInterface` from the composer. -/
def formatInterface (iface : InterfaceInfo) (indent : String) : String :=
  indent ++ "Interface: " ++ iface.name ++ "\n" ++
  (if iface.comment ≠ "" then indent ++ "  Comment: " ++ iface.comment ++ "\n" else "") ++
  (if iface.embeddeds ≠ [] then
    indent ++ "  Embeds:\n" ++
      String.join (iface.embeddeds.map (fun e => indent ++ "    - " ++ e ++ "\n"))
   else "") ++
  (if iface.methods ≠ [] then
    indent ++ "  Methods:\n" ++
      String.join (iface.methods.map (formatInterfaceMethod indent))
   else "")

/-- `FormatGlobalVar` from `format_global_var.go`. -/
def formatGlobalVar (gv : GlobalVarInfo) (indent : String) : String :=
  indent ++ (if gv.isConst then "Const" else "Var") ++ ": " ++ gv.name ++ " " ++ gv.type ++
  (if gv.value ≠ "" then " = " ++ gv.value else "") ++ "\n" ++
  (if gv.comment ≠ "" then indent ++ "  Comment: " ++ gv.comment ++ "\n" else "")

/-- One project-wide lookup map: a pass over every file of the project,
writing each element of the selected local list under its name (`m[k] = v`
semantics). -/
def projIndex {α : Type} (getList : FileInfo → List α) (key : α → String)
    (pinfo : ProjectInfo) : List (String × α) :=
  pinfo.foldl
    (fun m e => (getList e.2).foldl (fun m2 x => mapAssign m2 (key x) x) m)
    []

/-- The three project-wide lookup maps built at the top of the used-items
section of `Compose` (`project_composer.go`): every file's local structs,
interfaces and functions, keyed by fully qualified name. The source fills
the three maps in one loop over the project; each map only ever receives
its own kind, so the result equals three independent passes. -/
def buildProjectMaps (pinfo : ProjectInfo) :
    List (String × StructInfo) × List (String × InterfaceInfo) ×
      List (String × FunctionInfo) :=
  (projIndex (fun fi => fi.structs) StructInfo.name pinfo,
   projIndex (fun fi => fi.interfaces) InterfaceInfo.name pinfo,
   projIndex (fun fi => fi.functions) FunctionInfo.name pinfo)

/-- The enrichment chain of `Compose` (`project_composer.go`): look the
name up as a struct, then as an interface, then as a function; render the
first match as a full block, otherwise emit the bare reference line. -/
def enrichUsedItem (sm : List (String × StructInfo))
    (im : List (String × InterfaceInfo)) (fm : List (String × FunctionInfo))
    (name : String) : String :=
  match mapFind sm name with
  | some s => formatStruct s "  "
  | none =>
    match mapFind im name with
    | some i => formatInterface i "  "
    | none =>
      match mapFind fm name with
      | some f => formatFunction f "  "
      | none => "- " ++ name ++ "\n"

/-- Body of `Compose` for a found file (`project_composer.go`, the revision
present under `internal/composer`): header, package, then each section only
when its list is non-empty. -/
def composeFile (pinfo : ProjectInfo) (filePath : String) (fi : FileInfo) : String :=
  let maps := buildProjectMaps pinfo
  "--- File: " ++ filePath ++ " ---\n" ++
  "Package: " ++ fi.packageName ++ "\n" ++
  "\n" ++
  (if fi.imports ≠ [] then
    "Imports:\n" ++ String.join (fi.imports.map (fun i => "- " ++ i ++ "\n")) ++ "\n"
   else "") ++
  (if fi.functions ≠ [] then
    "Functions:\n" ++ String.join (fi.functions.map (fun f => formatFunction f "  ")) ++ "\n"
   else "") ++
  (if fi.structs ≠ [] then
    "Local Structs:\n" ++ String.join (fi.structs.map (fun s => formatStruct s "  "))
   else "") ++
  (if fi.interfaces ≠ [] then
    "Local Interfaces:\n" ++ String.join (fi.interfaces.map (fun i => formatInterface i "  "))
   else "") ++
  (if fi.usedImportedStructs ≠ [] ∨ fi.usedImportedFunctions ≠ [] then
    "Used Imported Structs (from this project, if available):\n" ++
    String.join (fi.usedImportedStructs.map
      (fun s => enrichUsedItem maps.1 maps.2.1 maps.2.2 s.name)) ++
    String.join (fi.usedImportedFunctions.map (fun f => formatFunction f "  "))
   else "")

/-- `Compose`: look the path up in the project map; absent paths yield the
typed not-found error, present paths yield the rendered report. -/
def compose (pinfo : ProjectInfo) (filePath : String) : Except String String :=
  match mapFind pinfo filePath with
  | none => Except.error ("file info not found for path: " ++ filePath)
  | some fi => Except.ok (composeFile pinfo filePath fi)

/-! ## Parser model

The parser (`project_parser.go`, newest revision) consumes the Go
frontend: `go/ast` syntax trees plus `go/types` resolution. A source file
is embedded as the pre-order sequence of the AST nodes the extractors
dispatch on, each node carrying the type-checker facts the code reads for
it (the `Uses`/`Defs` entries, canonical type strings, package paths and
doc-comment texts). Pointer identity of `*types.Package` is embedded as
equality of package paths. -/

/-- A `Uses` entry whose type is a named type: its declaring package path
(`none` when `Obj().Pkg()` is nil) and `namedType.String()`, the fully
qualified name. -/
structure NamedUse where
  pkgPath : Option String
  fqName : String
deriving DecidableEq, Repr

/-- A type expression as inspected by the used-struct extractor. -/
inductive TExpr
  | sel (resolved : Option NamedUse)
  | star (inner : TExpr)
  | arrayOf (elt : TExpr)
  | mapOf (value : TExpr)
  | otherT
deriving DecidableEq, Repr

/-- A `Uses` entry that is a `*types.Func`: `fn.String()` (the identity
compared during the project search), the declaring package path (`none`
when `fn.Pkg()` is nil) and the bare name. -/
structure FuncUse where
  funcId : String
  pkgPath : Option String
  name : String
deriving DecidableEq, Repr

/-- A `Uses` entry that is a `*types.Var` or `*types.Const`. -/
structure VarConstUse where
  pkgPath : Option String
  name : String
  typeStr : String
  isConst : Bool
  constVal : String
deriving DecidableEq, Repr

/-- The AST node events the used-symbol extractors dispatch on. -/
inductive UNode
  | compositeLit (t : TExpr)
  | declStmt (specTypes : List (Option TExpr))
  | fieldNode (t : TExpr)
  | identNode (resolved : Option NamedUse)
  | callSel (xIsIdent : Bool) (target : Option FuncUse)
  | selVarConst (target : Option VarConstUse)
  | otherNode
deriving DecidableEq, Repr

/-- One parameter or result group of a function declaration: the declared
names (possibly empty for an anonymous entry) and the canonical type. -/
structure FieldGroup where
  names : List String
  typeStr : String
deriving DecidableEq, Repr

/-- A function declaration with its resolved facts. -/
structure FuncDeclEv where
  funcId : String
  name : String
  doc : Option String
  hasRecv : Bool
  exported : Bool
  params : List FieldGroup
  results : List FieldGroup
deriving DecidableEq, Repr

/-- One declared name of a var/const `ValueSpec`, with its resolved type,
constant flag and constant value. -/
structure VarName where
  name : String
  typeStr : String
  isConst : Bool
  constVal : String
deriving DecidableEq, Repr

/-- A `ValueSpec`: its own doc comment, declared names and the printed
initializer expressions. -/
structure ValSpecEv where
  doc : Option String
  names : List VarName
  values : List String
deriving DecidableEq, Repr

/-- A var/const declaration group (`GenDecl`) with its doc comment. -/
structure GenValDecl where
  doc : Option String
  specs : List ValSpecEv
deriving DecidableEq, Repr

/-- Whether a type declaration's underlying type is a struct or an
interface. -/
inductive TypeKind
  | structKind
  | ifaceKind
deriving DecidableEq, Repr

/-- A type declaration: the group and spec doc comments, the fully
qualified name and the checker-provided members. -/
structure TypeDeclEv where
  genDeclDoc : Option String
  specDoc : Option String
  fqName : String
  kind : TypeKind
  fields : List StructField := []
  methods : List StructMethod := []
  imethods : List InterfaceMethod := []
  embeddeds : List String := []
deriving DecidableEq, Repr

/-- One parsed source file: its path, package name, import paths in file
order, top-level declarations and the node events of its AST traversal. -/
structure GoFile where
  path : String
  pkgName : String := ""
  imports : List String := []
  typeDecls : List TypeDeclEv := []
  varDecls : List GenValDecl := []
  funcDecls : List FuncDeclEv := []
  usedNodes : List UNode := []
deriving DecidableEq, Repr

/-- A loaded package as delivered by `packages.Load`: path, load/type
errors, `GoFiles`, the key set of the `Imports` map and the syntax trees. -/
structure Pkg where
  pkgPath : String
  errors : List String := []
  goFiles : List String := []
  importPaths : List String := []
  syntaxFiles : List GoFile := []
deriving DecidableEq, Repr

/-- Replacing write that keeps insertion order (`m[k] = v` on the local
per-file maps, whose contents are later emitted as a slice). -/
def mapPutReplace {α : Type} (m : List (String × α)) (k : String) (v : α) :
    List (String × α) :=
  match mapFind m k with
  | some _ => m.map (fun p => if p.1 = k then (k, v) else p)
  | none => m ++ [(k, v)]

/-- Doc comment of a type declaration (`extractDetailedStructInfo` and
`extractDetailedInterfaceInfo`): the group comment when present, else the
spec comment, else empty. -/
def typeDocComment (genDeclDoc specDoc : Option String) : String :=
  match genDeclDoc with
  | some d => trimSpace d
  | none =>
    match specDoc with
    | some d => trimSpace d
    | none => ""

/-- `extractDetailedStructInfo`: fully qualified name, doc comment with
group precedence, checker-provided fields and methods. -/
def extractDetailedStructInfo (d : TypeDeclEv) : StructInfo :=
  { name := d.fqName
    comment := typeDocComment d.genDeclDoc d.specDoc
    fields := d.fields
    methods := d.methods }

/-- `extractDetailedInterfaceInfo`: fully qualified name, doc comment with
group precedence, explicit methods and embedded interface names. -/
def extractDetailedInterfaceInfo (d : TypeDeclEv) : InterfaceInfo :=
  { name := d.fqName
    comment := typeDocComment d.genDeclDoc d.specDoc
    methods := d.imethods
    embeddeds := d.embeddeds }

/-- `extractGlobalVarInfo`: the spec comment is preferred and the group
comment is the fallback; a constant's value is its resolved literal, a
variable's the printed initializer at the spec index when present. -/
def extractGlobalVarInfo (genDeclDoc : Option String) (vs : ValSpecEv)
    (specIndex : Nat) (v : VarName) : GlobalVarInfo :=
  let comment :=
    match vs.doc with
    | some d => d
    | none =>
      match genDeclDoc with
      | some d => d
      | none => ""
  let value :=
    if v.isConst then v.constVal
    else
      match vs.values.get? specIndex with
      | some s => s
      | none => ""
  { name := v.name
    comment := trimSpace comment
    type := v.typeStr
    value := value
    isConst := v.isConst }

/-- Parameter descriptors of one field group (`name type`, or the bare
type for an anonymous parameter). -/
def fieldGroupParams (g : FieldGroup) : List String :=
  if g.names = [] then [g.typeStr]
  else g.names.map (fun n => n ++ " " ++ g.typeStr)

/-- Return-type strings of one field group (one per declared name, or one
for an anonymous result). -/
def fieldGroupReturns (g : FieldGroup) : List String :=
  if g.names = [] then [g.typeStr]
  else g.names.map (fun _ => g.typeStr)

/-- `extractFunctionInfo`: local name, trimmed doc comment, parameter
descriptors and return types. -/
def extractFunctionInfo (d : FuncDeclEv) : FunctionInfo :=
  { name := d.name
    comment :=
      match d.doc with
      | some s => trimSpace s
      | none => ""
    params := (d.params.map fieldGroupParams).flatten
    returns := (d.results.map fieldGroupReturns).flatten }

/-- The check shared by every detection surface of the used-struct
extractor: a named type declared in a non-nil package different from the
file's own package is recorded once under its fully qualified name. -/
def addUsedStruct (curPkgPath : String) (m : List (String × StructInfo))
    (u : NamedUse) : List (String × StructInfo) :=
  match u.pkgPath with
  | some p =>
    if p ≠ curPkgPath then mapPutNew m u.fqName { name := u.fqName } else m
  | none => m

/-- Slice/array element and map value unwrapping applied to declared
variable types and field types. -/
def unwrapArrMap : TExpr → TExpr
  | .arrayOf e => e
  | .mapOf v => v
  | t => t

/-- Pointer dereference applied to the type expression before the
selector check. -/
def unwrapStar : TExpr → TExpr
  | .star e => e
  | t => t

/-- The selector check at the end of the used-struct extractor's node
switch. -/
def selAdd (curPkgPath : String) (m : List (String × StructInfo)) :
    TExpr → List (String × StructInfo)
  | .sel (some u) => addUsedStruct curPkgPath m u
  | _ => m

/-- One node step of `extractUsedImportedStructInfoFromFile`: composite
literal types, the last value-spec type of a declaration statement
(element/value type for slices and maps), field types, and direct
identifier uses. -/
def usedStructStep (curPkgPath : String) (m : List (String × StructInfo)) :
    UNode → List (String × StructInfo)
  | .compositeLit t => selAdd curPkgPath m (unwrapStar t)
  | .declStmt specTypes =>
    match specTypes.getLast?.bind id with
    | some t => selAdd curPkgPath m (unwrapStar (unwrapArrMap t))
    | none => m
  | .fieldNode t => selAdd curPkgPath m (unwrapStar (unwrapArrMap t))
  | .identNode (some u) => addUsedStruct curPkgPath m u
  | _ => m

/-- The used-struct map of a file, keyed by fully qualified name, in
first-insertion order. -/
def extractUsedImportedStructsMap (curPkgPath : String) (nodes : List UNode) :
    List (String × StructInfo) :=
  nodes.foldl (usedStructStep curPkgPath) []

/-- `extractUsedImportedStructInfoFromFile`: the values of the used-struct
map, emitted as a slice. The Go code emits them in map iteration order;
this canonical form lists them in first-insertion order, and iteration
nondeterminism is modelled as a permutation where a claim depends on it. -/
def extractUsedImportedStructInfoFromFile (curPkgPath : String)
    (nodes : List UNode) : List StructInfo :=
  (extractUsedImportedStructsMap curPkgPath nodes).map (fun p => p.2)

/-- The project search of `extractUsedImportedFunctions`: the first
receiver-less function declaration in any project package whose resolved
object matches the call target's identity. -/
def findProjectFuncDecl (projectPkgs : List Pkg) (funcId : String) :
    Option (Pkg × FuncDeclEv) :=
  projectPkgs.findSome? (fun p2 =>
    p2.syntaxFiles.findSome? (fun f =>
      (f.funcDecls.find? (fun d => !d.hasRecv && d.funcId == funcId)).map
        (fun d => (p2, d))))

/-- One node step of `extractUsedImportedFunctions`: a qualified call
whose target is a function of another package appends one entry per call
site when a matching project declaration is found (no dedup guard). -/
def usedFuncStep (curPkgPath : String) (projectPkgs : List Pkg)
    (acc : List FunctionInfo) : UNode → List FunctionInfo
  | .callSel xIsIdent target =>
    if xIsIdent then
      match target with
      | some u =>
        match u.pkgPath with
        | some p =>
          if p ≠ curPkgPath then
            match findProjectFuncDecl projectPkgs u.funcId with
            | some (p2, d) =>
              acc ++ [{ name := p2.pkgPath ++ "." ++ d.name
                        comment :=
                          match d.doc with
                          | some s => trimSpace s
                          | none => ""
                        params := (d.params.map fieldGroupParams).flatten
                        returns := (d.results.map fieldGroupReturns).flatten }]
            | none => acc
          else acc
        | none => acc
      | none => acc
    else acc
  | _ => acc

/-- `extractUsedImportedFunctions`, a fold of `usedFuncStep` over the
file's nodes. -/
def extractUsedImportedFunctions (curPkgPath : String)
    (projectPkgs : List Pkg) (nodes : List UNode) : List FunctionInfo :=
  nodes.foldl (usedFuncStep curPkgPath projectPkgs) []

/-- The project search of `extractUsedImportedGlobalVars`: the first
value-spec name equal to the referenced object's name inside the package
with the matching path, extracted with its declaration context and
renamed to the fully qualified name. -/
def findProjectVarDecl (projectPkgs : List Pkg) (objPkgPath objName fqName : String) :
    Option GlobalVarInfo :=
  projectPkgs.findSome? (fun p2 =>
    if p2.pkgPath = objPkgPath then
      p2.syntaxFiles.findSome? (fun f =>
        f.varDecls.findSome? (fun gd =>
          gd.specs.findSome? (fun vs =>
            vs.names.enum.findSome? (fun iv =>
              if iv.2.name = objName then
                some { extractGlobalVarInfo gd.doc vs iv.1 iv.2 with name := fqName }
              else none))))
    else none)

/-- One node step of `extractUsedImportedGlobalVars`: a selector resolving
to a var or const of another package is recorded once under its fully
qualified name, enriched from the project when possible, else rebuilt
from the checker facts. -/
def usedVarStep (curPkgPath : String) (projectPkgs : List Pkg)
    (m : List (String × GlobalVarInfo)) : UNode → List (String × GlobalVarInfo)
  | .selVarConst (some u) =>
    match u.pkgPath with
    | some p =>
      if p ≠ curPkgPath then
        let varName := p ++ "." ++ u.name
        match mapFind m varName with
        | some _ => m
        | none =>
          match findProjectVarDecl projectPkgs p u.name varName with
          | some gv => m ++ [(varName, gv)]
          | none =>
            if u.isConst then
              m ++ [(varName,
                { name := varName, type := u.typeStr, value := u.constVal,
                  isConst := true })]
            else
              m ++ [(varName, { name := varName, type := u.typeStr, isConst := false })]
      else m
    | none => m
  | _ => m

/-- `extractUsedImportedGlobalVars`: values of the used-var map as a
slice (first-insertion order as the canonical iteration order). -/
def extractUsedImportedGlobalVars (curPkgPath : String)
    (projectPkgs : List Pkg) (nodes : List UNode) : List GlobalVarInfo :=
  (nodes.foldl (usedVarStep curPkgPath projectPkgs) []).map (fun p => p.2)

/-- `extractFileInfoForFile`: package name, file-order imports, top-level
functions without receiver, local structs and interfaces (collected
through name-keyed maps), global vars per declared name, and the three
used-imported lists. -/
def extractFileInfoForFile (file : GoFile) (pkg : Pkg) (projectPkgs : List Pkg) :
    FileInfo :=
  let localStructs := file.typeDecls.foldl
    (fun m d =>
      match d.kind with
      | .structKind => mapPutReplace m d.fqName (extractDetailedStructInfo d)
      | .ifaceKind => m) []
  let localIfaces := file.typeDecls.foldl
    (fun m d =>
      match d.kind with
      | .ifaceKind => mapPutReplace m d.fqName (extractDetailedInterfaceInfo d)
      | .structKind => m) []
  { packageName := file.pkgName
    imports := file.imports
    functions := (file.funcDecls.filter (fun d => !d.hasRecv)).map extractFunctionInfo
    structs := localStructs.map (fun p => p.2)
    interfaces := localIfaces.map (fun p => p.2)
    globalVars :=
      (file.varDecls.map (fun gd =>
        (gd.specs.map (fun vs =>
          vs.names.enum.map (fun iv => extractGlobalVarInfo gd.doc vs iv.1 iv.2))).flatten)).flatten
    usedImportedStructs := extractUsedImportedStructInfoFromFile pkg.pkgPath file.usedNodes
    usedImportedFunctions := extractUsedImportedFunctions pkg.pkgPath projectPkgs file.usedNodes
    usedImportedGlobalVars := extractUsedImportedGlobalVars pkg.pkgPath projectPkgs file.usedNodes }

/-- `ParseProject`: a frontend load error is wrapped; zero loaded packages
is the `no packages found` error; otherwise every syntax file of every
package (packages with errors are logged and still processed) is
extracted and keyed by its absolute path. -/
def parseProject (loadResult : Except String (List Pkg)) (projectPath : String) :
    Except String ProjectInfo :=
  match loadResult with
  | Except.error e => Except.error ("failed to load packages: " ++ e)
  | Except.ok pkgs =>
    if pkgs = [] then Except.error ("no packages found in " ++ projectPath)
    else
      Except.ok (pkgs.foldl
        (fun acc pkg =>
          pkg.syntaxFiles.foldl
            (fun acc2 file => mapAssign acc2 file.path (extractFileInfoForFile file pkg pkgs))
            acc)
        [])

/-- Exported function names of a package, collected by scanning every
syntax file's function declarations (`BuildGraph`). -/
def extractPkgExportedFunctions (pkg : Pkg) : List String :=
  pkg.syntaxFiles.foldl
    (fun acc f =>
      f.funcDecls.foldl (fun acc2 d => if d.exported then acc2 ++ [d.name] else acc2) acc)
    []

/-- The node `BuildGraph` creates for an error-free package: its path,
`GoFiles`, the key set of its `Imports` map and its exported functions. -/
def mkGraphNode (pkg : Pkg) : Node :=
  { pkgPath := pkg.pkgPath
    files := pkg.goFiles
    dependsOn := pkg.importPaths
    functions := extractPkgExportedFunctions pkg }

/-- One package step of `BuildGraph`: packages with load errors are
skipped entirely, the rest get a node under their package path. -/
def addPkgNode (nodes : List (String × Node)) (pkg : Pkg) : List (String × Node) :=
  if pkg.errors = [] then mapAssign nodes pkg.pkgPath (mkGraphNode pkg) else nodes

/-- `BuildGraph` over the loaded packages. -/
def buildGraph (pkgs : List Pkg) : DependencyGraph :=
  ⟨pkgs.foldl addPkgNode []⟩

/-! ## The current used-items section of `Compose`

The revision of `Compose` that renders the `Used Items From Other
Packages:` section is exercised by the tests under `internal/composer`
but its body is not among the sources; the merge of the three
used-imported lists is therefore modelled from the specification, reusing
the enrichment chain embedded from the source above. -/

/-- One entry of the merged used-items sequence, tagged by the list it
came from. -/
inductive UsedEntry
  | structRef (s : StructInfo)
  | funcRef (f : FunctionInfo)
  | gvarRef (g : GlobalVarInfo)
deriving DecidableEq, Repr

/-- The fully qualified name of a merged entry, the dedup key. -/
def UsedEntry.fqName : UsedEntry → String
  | .structRef s => s.name
  | .funcRef f => f.name
  | .gvarRef g => g.name

/-- Modelled from the spec: each merged entry is enriched in place against
the project-wide index with the struct/interface/function chain; an
unresolved name-only struct reference degrades to the bare reference
line, while function and global-var entries, which carry their own
details, fall back to their own formatted block. -/
def renderUsedEntry (sm : List (String × StructInfo))
    (im : List (String × InterfaceInfo)) (fm : List (String × FunctionInfo)) :
    UsedEntry → String
  | .structRef s => enrichUsedItem sm im fm s.name
  | .funcRef f =>
    match mapFind sm f.name with
    | some s => formatStruct s "  "
    | none =>
      match mapFind im f.name with
      | some i => formatInterface i "  "
      | none =>
        match mapFind fm f.name with
        | some g => formatFunction g "  "
        | none => formatFunction f "  "
  | .gvarRef g =>
    match mapFind sm g.name with
    | some s => formatStruct s "  "
    | none =>
      match mapFind im g.name with
      | some i => formatInterface i "  "
      | none =>
        match mapFind fm g.name with
        | some f => formatFunction f "  "
        | none => formatGlobalVar g "  "

/-- Modelled from the spec: the merged sequence is walked with a single
processed-set of fully qualified names; the first occurrence of a name is
rendered and recorded, later occurrences (from the same or another list)
are dropped. Each output pair is a rendered block labelled by its name. -/
def composeUsedItems (sm : List (String × StructInfo))
    (im : List (String × InterfaceInfo)) (fm : List (String × FunctionInfo)) :
    List UsedEntry → List String → List (String × String)
  | [], _ => []
  | e :: rest, processed =>
    if e.fqName ∈ processed then composeUsedItems sm im fm rest processed
    else (e.fqName, renderUsedEntry sm im fm e) ::
      composeUsedItems sm im fm rest (e.fqName :: processed)

/-- Modelled from the spec: the three used-imported lists of a file are
merged in the fixed order structs, functions, global vars. -/
def mergeUsedLists (fi : FileInfo) : List UsedEntry :=
  fi.usedImportedStructs.map UsedEntry.structRef ++
  fi.usedImportedFunctions.map UsedEntry.funcRef ++
  fi.usedImportedGlobalVars.map UsedEntry.gvarRef

/-- The rendered blocks of the `Used Items From Other Packages` section of
a file, labelled by fully qualified name. -/
def usedItemsSection (pinfo : ProjectInfo) (fi : FileInfo) : List (String × String) :=
  let maps := buildProjectMaps pinfo
  composeUsedItems maps.1 maps.2.1 maps.2.2 (mergeUsedLists fi) []

/-- The text of the section: header plus the concatenated blocks. -/
def usedItemsSectionText (pinfo : ProjectInfo) (fi : FileInfo) : String :=
  "Used Items From Other Packages:\n" ++
  String.join ((usedItemsSection pinfo fi).map (fun p => p.2))

/-! ## Helper lemmas -/

/-- A key is absent from an association list iff it is not among the
keys. -/
theorem mapFind_eq_none_iff {α : Type} (m : List (String × α)) (k : String) :
    mapFind m k = none ↔ k ∉ m.map Prod.fst := by
  induction m with
  | nil => simp [mapFind]
  | cons p rest ih =>
    obtain ⟨pk, pv⟩ := p
    by_cases h : pk = k
    · subst h
      simp [mapFind]
    · simp [mapFind, h, ih, Ne.symm h]

/-- Keys of a fold of Go-map writes over an inner list. -/
theorem mapAssign_fold_keys {α β : Type} (key : β → String) (val : β → α)
    (l : List β) (m0 : List (String × α)) (k : String) :
    (k ∈ (l.foldl (fun m x => mapAssign m (key x) (val x)) m0).map Prod.fst) ↔
      (k ∈ m0.map Prod.fst ∨ k ∈ l.map key) := by
  induction l generalizing m0 with
  | nil => simp
  | cons x rest ih =>
    rw [List.foldl_cons, ih]
    simp only [mapAssign, List.map_cons, List.mem_cons]
    tauto

/-- Keys of the doubly nested fold of Go-map writes used by
`parseProject` and the project-wide index construction. -/
theorem mapAssign_fold2_keys {α β γ : Type} (inner : β → List γ) (key : γ → String)
    (val : β → γ → α) (l : List β) (m0 : List (String × α)) (k : String) :
    (k ∈ (l.foldl
        (fun m b => (inner b).foldl (fun m2 c => mapAssign m2 (key c) (val b c)) m)
        m0).map Prod.fst) ↔
      (k ∈ m0.map Prod.fst ∨ ∃ b ∈ l, k ∈ (inner b).map key) := by
  induction l generalizing m0 with
  | nil => simp
  | cons b rest ih =>
    simp only [List.foldl_cons, ih, List.mem_cons]
    rw [mapAssign_fold_keys]
    constructor
    · rintro (⟨h | h⟩ | ⟨b2, hb2, hk⟩)
      · exact Or.inl h
      · exact Or.inr ⟨b, Or.inl rfl, h⟩
      · exact Or.inr ⟨b2, Or.inr hb2, hk⟩
    · rintro (h | ⟨b2, hb2 | hb2, hk⟩)
      · exact Or.inl (Or.inl h)
      · exact Or.inl (Or.inr (hb2 ▸ hk))
      · exact Or.inr ⟨b2, hb2, hk⟩

/-- A string whose character list starts differently from another's is a
different string. -/
theorem string_ne_of_head_ne (s t : String) (h : s.data.head? ≠ t.data.head?) :
    s ≠ t := by
  intro e
  exact h (by rw [e])

/-- Appending cannot change a known first character. -/
theorem data_head_append (s t : String) (c : Char) (h : s.data.head? = some c) :
    (s ++ t).data.head? = some c := by
  rw [String.data_append]
  cases hs : s.data with
  | nil => simp [hs] at h
  | cons a l =>
    rw [hs] at h
    simpa using h

/-- Every struct block rendered at the used-items indent starts with a
space. -/
theorem formatStruct_head (s : StructInfo) :
    (formatStruct s "  ").data.head? = some ' ' := by
  unfold formatStruct
  repeat apply data_head_append
  decide

/-- Every interface block rendered at the used-items indent starts with a
space. -/
theorem formatInterface_head (i : InterfaceInfo) :
    (formatInterface i "  ").data.head? = some ' ' := by
  unfold formatInterface
  repeat apply data_head_append
  decide

/-- Every function block rendered at the used-items indent starts with a
space. -/
theorem formatFunction_head (f : FunctionInfo) :
    (formatFunction f "  ").data.head? = some ' ' := by
  unfold formatFunction
  repeat apply data_head_append
  decide

/-- Every global-var block rendered at the used-items indent starts with a
space. -/
theorem formatGlobalVar_head (g : GlobalVarInfo) :
    (formatGlobalVar g "  ").data.head? = some ' ' := by
  unfold formatGlobalVar
  repeat apply data_head_append
  decide

/-- The bare reference line starts with a dash. -/
theorem stubLine_head (name : String) :
    ("- " ++ name ++ "\n").data.head? = some '-' := by
  repeat apply data_head_append
  decide

/-! ## Claim C10 -/

/-- C10: in the used-items enrichment of `Compose` the project-wide index
is consulted in the fixed order struct, then interface, then function: a
name matching a struct definition renders the struct block even when the
other kinds also match; with no struct match an interface match renders
the interface block; a function block is rendered only when neither
earlier kind matches; and the bare reference line is emitted only when no
kind matches. -/
theorem enrich_kind_precedence_c10 (sm : List (String × StructInfo))
    (im : List (String × InterfaceInfo)) (fm : List (String × FunctionInfo))
    (name : String) :
    (∀ s, mapFind sm name = some s →
      enrichUsedItem sm im fm name = formatStruct s "  ") ∧
    (mapFind sm name = none → ∀ i, mapFind im name = some i →
      enrichUsedItem sm im fm name = formatInterface i "  ") ∧
    (mapFind sm name = none → mapFind im name = none →
      ∀ f, mapFind fm name = some f →
        enrichUsedItem sm im fm name = formatFunction f "  ") ∧
    (mapFind sm name = none → mapFind im name = none → mapFind fm name = none →
      enrichUsedItem sm im fm name = "- " ++ name ++ "\n") := by
  refine ⟨?_, ?_, ?_, ?_⟩ <;> intros <;> simp_all [enrichUsedItem]

/-- Demo struct definition sharing its name with the other kinds. -/
def demoIdxStruct : StructInfo := { name := "example.com/pkg.T" }

/-- Demo interface definition sharing its name with the other kinds. -/
def demoIdxIface : InterfaceInfo := { name := "example.com/pkg.T" }

/-- Demo function definition sharing its name with the other kinds. -/
def demoIdxFunc : FunctionInfo := { name := "example.com/pkg.T" }

/-- Witness for C10: with all three kinds defined under one name the
struct block wins, and with no match the bare line is emitted. -/
theorem enrich_kind_precedence_c10_witness :
    enrichUsedItem [("example.com/pkg.T", demoIdxStruct)]
        [("example.com/pkg.T", demoIdxIface)] [("example.com/pkg.T", demoIdxFunc)]
        "example.com/pkg.T" = formatStruct demoIdxStruct "  " ∧
    enrichUsedItem [] [] [] "example.com/pkg.T" = "- " ++ "example.com/pkg.T" ++ "\n" :=
  ⟨(enrich_kind_precedence_c10 [("example.com/pkg.T", demoIdxStruct)]
      [("example.com/pkg.T", demoIdxIface)] [("example.com/pkg.T", demoIdxFunc)]
      "example.com/pkg.T").1 demoIdxStruct (by decide),
   (enrich_kind_precedence_c10 [] [] [] "example.com/pkg.T").2.2.2 rfl rfl rfl⟩

/-! ## Claim C4 -/

/-- C4: `Compose` on a path absent from the supplied project map returns
exactly the typed error with the offending path embedded and never a
silent empty result; on any present path it returns the rendered report
without error; hence `Compose` on each path of a successful `ParseProject`
result never fails with this error. -/
theorem compose_not_found_c4 (pinfo : ProjectInfo) (filePath : String) :
    (mapFind pinfo filePath = none →
      compose pinfo filePath =
        Except.error ("file info not found for path: " ++ filePath)) ∧
    (∀ fi, mapFind pinfo filePath = some fi →
      compose pinfo filePath = Except.ok (composeFile pinfo filePath fi)) ∧
    (∀ loadRes root m, parseProject loadRes root = Except.ok m →
      ∀ p ∈ m.map Prod.fst, ∃ s, compose m p = Except.ok s) := by
  refine ⟨?_, ?_, ?_⟩
  · intro h
    simp [compose, h]
  · intro fi h
    simp [compose, h]
  · intro loadRes root m _ p hp
    rcases hfind : mapFind m p with _ | fi
    · rw [mapFind_eq_none_iff] at hfind
      exact absurd hp hfind
    · exact ⟨composeFile m p fi, by simp [compose, hfind]⟩

/-- Demo source file for the parse-then-compose round trip. -/
def demoFile1 : GoFile :=
  { path := "/proj/main.go", pkgName := "main", imports := ["fmt"] }

/-- Demo package holding `demoFile1`. -/
def demoPkg1 : Pkg :=
  { pkgPath := "example.com/app", syntaxFiles := [demoFile1] }

/-- The project map produced for the demo package. -/
def demoProjectInfo : ProjectInfo :=
  [("/proj/main.go", extractFileInfoForFile demoFile1 demoPkg1 [demoPkg1])]

/-- Witness for C4: the not-found error on a missing path, and a
successful composition of the one path `parseProject` returns. -/
theorem compose_not_found_c4_witness :
    compose demoProjectInfo "/missing.go" =
      Except.error ("file info not found for path: " ++ "/missing.go") ∧
    (∃ s, compose demoProjectInfo "/proj/main.go" = Except.ok s) := by
  refine ⟨(compose_not_found_c4 demoProjectInfo "/missing.go").1 (by decide), ?_⟩
  exact (compose_not_found_c4 demoProjectInfo "/proj/main.go").2.2
    (Except.ok [demoPkg1]) "/proj" demoProjectInfo (by rfl) "/proj/main.go" (by decide)

/-! ## Claim C1 -/

/-- How often a given name is emitted by the merged used-items walk: never
when already processed, exactly once when it occurs among the remaining
entries. -/
theorem countP_composeUsedItems (sm : List (String × StructInfo))
    (im : List (String × InterfaceInfo)) (fm : List (String × FunctionInfo))
    (name : String) :
    ∀ (es : List UsedEntry) (processed : List String),
      (composeUsedItems sm im fm es processed).countP (fun p => p.1 == name) =
        if name ∈ processed then 0
        else if name ∈ es.map UsedEntry.fqName then 1 else 0
  | [], processed => by
    simp [composeUsedItems]
  | e :: rest, processed => by
    by_cases hp : e.fqName ∈ processed
    · rw [show composeUsedItems sm im fm (e :: rest) processed =
            composeUsedItems sm im fm rest processed by
          simp [composeUsedItems, hp]]
      rw [countP_composeUsedItems sm im fm name rest processed]
      by_cases hn : name ∈ processed
      · simp [hn]
      · have hne : ¬ name = e.fqName := fun h => hn (h ▸ hp)
        simp [hn, hne]
    · rw [show composeUsedItems sm im fm (e :: rest) processed =
            (e.fqName, renderUsedEntry sm im fm e) ::
              composeUsedItems sm im fm rest (e.fqName :: processed) by
          simp [composeUsedItems, hp]]
      rw [List.countP_cons,
        countP_composeUsedItems sm im fm name rest (e.fqName :: processed)]
      by_cases hn : name ∈ processed
      · have hne : ¬ name = e.fqName := fun h => hp (h ▸ hn)
        have hbeq : (e.fqName == name) = false :=
          beq_eq_false_iff_ne.mpr (fun h => hne h.symm)
        simp [hn, hne, hbeq]
      · by_cases heq : name = e.fqName
        · subst heq
          simp [hn]
        · have hbeq : (e.fqName == name) = false :=
            beq_eq_false_iff_ne.mpr (fun h => heq h.symm)
          simp [hn, heq, hbeq]

/-- C1: for a file whose used-imported lists contain the same fully
qualified name in two of the three lists, the used-items section of
`Compose` emits exactly one rendered block for that name: the three lists
are merged and deduplicated by one processed set, first write wins. -/
theorem usedItems_dedup_c1 (pinfo : ProjectInfo) (fi : FileInfo) (name : String)
    (h :
      (name ∈ fi.usedImportedStructs.map StructInfo.name ∧
        name ∈ fi.usedImportedFunctions.map FunctionInfo.name) ∨
      (name ∈ fi.usedImportedStructs.map StructInfo.name ∧
        name ∈ fi.usedImportedGlobalVars.map GlobalVarInfo.name) ∨
      (name ∈ fi.usedImportedFunctions.map FunctionInfo.name ∧
        name ∈ fi.usedImportedGlobalVars.map GlobalVarInfo.name)) :
    (usedItemsSection pinfo fi).countP (fun p => p.1 == name) = 1 := by
  have hsplit : (mergeUsedLists fi).map UsedEntry.fqName =
      fi.usedImportedStructs.map StructInfo.name ++
      fi.usedImportedFunctions.map FunctionInfo.name ++
      fi.usedImportedGlobalVars.map GlobalVarInfo.name := by
    simp [mergeUsedLists, List.map_map, Function.comp_def, UsedEntry.fqName]
  have hmem : name ∈ (mergeUsedLists fi).map UsedEntry.fqName := by
    rw [hsplit]
    simp only [List.mem_append]
    tauto
  show (composeUsedItems (buildProjectMaps pinfo).1 (buildProjectMaps pinfo).2.1
      (buildProjectMaps pinfo).2.2 (mergeUsedLists fi) []).countP
      (fun p => p.1 == name) = 1
  rw [countP_composeUsedItems]
  simp [hmem]

/-- The shared fully qualified name of the C1 witness. -/
def demoDupName : String := "example.com/project/other.MyFunction"

/-- A file referencing `demoDupName` through two of its used-imported
lists at once. -/
def demoDupFi : FileInfo :=
  { packageName := "main"
    usedImportedStructs := [{ name := demoDupName }]
    usedImportedFunctions := [{ name := demoDupName, params := ["i int"] }] }

/-- A project containing `demoDupFi` and a file defining the function. -/
def demoDupProj : ProjectInfo :=
  [("/project/other.go",
    { packageName := "other"
      functions := [{ name := demoDupName, params := ["i int"] }] }),
   ("/project/main.go", demoDupFi)]

/-- Witness for C1 at the duplicated name of the repository's own
composer dedup test. -/
theorem usedItems_dedup_c1_witness :
    (demoDupName ∈ demoDupFi.usedImportedStructs.map StructInfo.name ∧
      demoDupName ∈ demoDupFi.usedImportedFunctions.map FunctionInfo.name) ∧
    (usedItemsSection demoDupProj demoDupFi).countP
      (fun p => p.1 == demoDupName) = 1 :=
  ⟨⟨by decide, by decide⟩,
   usedItems_dedup_c1 demoDupProj demoDupFi demoDupName
     (Or.inl ⟨by decide, by decide⟩)⟩

/-! ## Claim C3 -/

/-- Every emitted used-items pair comes from a merged entry, labelled by
its name and carrying its rendering. -/
theorem mem_composeUsedItems (sm : List (String × StructInfo))
    (im : List (String × InterfaceInfo)) (fm : List (String × FunctionInfo)) :
    ∀ (es : List UsedEntry) (processed : List String) (q : String × String),
      q ∈ composeUsedItems sm im fm es processed →
      ∃ e ∈ es, q = (e.fqName, renderUsedEntry sm im fm e)
  | [], _, q => by
    simp [composeUsedItems]
  | e :: rest, processed, q => by
    simp only [composeUsedItems]
    split_ifs with hp
    · intro hq
      obtain ⟨e2, he2, hq2⟩ := mem_composeUsedItems sm im fm rest processed q hq
      exact ⟨e2, List.mem_cons_of_mem _ he2, hq2⟩
    · intro hq
      rcases List.mem_cons.mp hq with h | h
      · exact ⟨e, List.mem_cons_self e rest, h⟩
      · obtain ⟨e2, he2, hq2⟩ :=
          mem_composeUsedItems sm im fm rest (e.fqName :: processed) q h
        exact ⟨e2, List.mem_cons_of_mem _ he2, hq2⟩

/-- The project-wide index contains a key iff some file's selected local
list contains an element with that name. -/
theorem mem_keys_projIndex {α : Type} (getList : FileInfo → List α)
    (key : α → String) (pinfo : ProjectInfo) (k : String) :
    k ∈ (projIndex getList key pinfo).map Prod.fst ↔
      ∃ e ∈ pinfo, k ∈ (getList e.2).map key := by
  have h := mapAssign_fold2_keys (fun e : String × FileInfo => getList e.2) key
    (fun _ x => x) pinfo [] k
  simpa using h

/-- A merged entry whose name is found in some index component renders as
a block that starts with the section indent, never with a dash. -/
theorem renderUsedEntry_head (sm : List (String × StructInfo))
    (im : List (String × InterfaceInfo)) (fm : List (String × FunctionInfo))
    (e : UsedEntry)
    (hfound : mapFind sm e.fqName ≠ none ∨ mapFind im e.fqName ≠ none ∨
      mapFind fm e.fqName ≠ none) :
    (renderUsedEntry sm im fm e).data.head? = some ' ' := by
  cases e with
  | structRef s =>
    rcases hs : mapFind sm s.name with _ | v
    · rcases hi : mapFind im s.name with _ | v
      · rcases hf : mapFind fm s.name with _ | v
        · exfalso
          simp [UsedEntry.fqName, hs, hi, hf] at hfound
        · simp only [renderUsedEntry, enrichUsedItem, hs, hi, hf]
          exact formatFunction_head v
      · simp only [renderUsedEntry, enrichUsedItem, hs, hi]
        exact formatInterface_head v
    · simp only [renderUsedEntry, enrichUsedItem, hs]
      exact formatStruct_head v
  | funcRef f =>
    rcases hs : mapFind sm f.name with _ | v
    · rcases hi : mapFind im f.name with _ | v
      · rcases hf : mapFind fm f.name with _ | v
        · simp only [renderUsedEntry, hs, hi, hf]
          exact formatFunction_head f
        · simp only [renderUsedEntry, hs, hi, hf]
          exact formatFunction_head v
      · simp only [renderUsedEntry, hs, hi]
        exact formatInterface_head v
    · simp only [renderUsedEntry, hs]
      exact formatStruct_head v
  | gvarRef g =>
    rcases hs : mapFind sm g.name with _ | v
    · rcases hi : mapFind im g.name with _ | v
      · rcases hf : mapFind fm g.name with _ | v
        · simp only [renderUsedEntry, hs, hi, hf]
          exact formatGlobalVar_head g
        · simp only [renderUsedEntry, hs, hi, hf]
          exact formatFunction_head v
      · simp only [renderUsedEntry, hs, hi]
        exact formatInterface_head v
    · simp only [renderUsedEntry, hs]
      exact formatStruct_head v

/-- C3: a fully qualified name that appears in some file's local structs,
interfaces or functions list is always enriched when referenced from
another file's used-imported lists: every block the used-items section
emits for that name is a full detailed block and never the bare
one-line reference stub. -/
theorem usedItems_enrichment_c3 (pinfo : ProjectInfo) (fi : FileInfo) (name : String)
    (hidx :
      (∃ e ∈ pinfo, name ∈ e.2.structs.map StructInfo.name) ∨
      (∃ e ∈ pinfo, name ∈ e.2.interfaces.map InterfaceInfo.name) ∨
      (∃ e ∈ pinfo, name ∈ e.2.functions.map FunctionInfo.name)) :
    ∀ q ∈ usedItemsSection pinfo fi, q.1 = name →
      q.2 ≠ "- " ++ name ++ "\n" := by
  intro q hq hq1
  obtain ⟨e, _, rfl⟩ :=
    mem_composeUsedItems (buildProjectMaps pinfo).1 (buildProjectMaps pinfo).2.1
      (buildProjectMaps pinfo).2.2 (mergeUsedLists fi) [] q hq
  have hname : e.fqName = name := hq1
  have hfound : mapFind (buildProjectMaps pinfo).1 e.fqName ≠ none ∨
      mapFind (buildProjectMaps pinfo).2.1 e.fqName ≠ none ∨
      mapFind (buildProjectMaps pinfo).2.2 e.fqName ≠ none := by
    rcases hidx with h | h | h
    · refine Or.inl ?_
      rw [Ne, mapFind_eq_none_iff, not_not, hname]
      exact (mem_keys_projIndex (fun fi2 => fi2.structs) StructInfo.name pinfo name).mpr h
    · refine Or.inr (Or.inl ?_)
      rw [Ne, mapFind_eq_none_iff, not_not, hname]
      exact (mem_keys_projIndex (fun fi2 => fi2.interfaces) InterfaceInfo.name pinfo name).mpr h
    · refine Or.inr (Or.inr ?_)
      rw [Ne, mapFind_eq_none_iff, not_not, hname]
      exact (mem_keys_projIndex (fun fi2 => fi2.functions) FunctionInfo.name pinfo name).mpr h
  have hh := renderUsedEntry_head (buildProjectMaps pinfo).1
    (buildProjectMaps pinfo).2.1 (buildProjectMaps pinfo).2.2 e hfound
  exact string_ne_of_head_ne _ _ (by rw [hh, stubLine_head name]; decide)

/-- The referencing file of the C3 witness. -/
def demoEnrichFi : FileInfo :=
  { packageName := "main"
    usedImportedStructs := [{ name := "example.com/dto.Data" }] }

/-- A project defining a struct locally in one file and referencing it
from another, for the C3 witness. -/
def demoEnrichProj : ProjectInfo :=
  [("/project/def.go",
    { packageName := "dto"
      structs := [{ name := "example.com/dto.Data"
                    fields := [{ name := "Value", type := "string" }] }] }),
   ("/project/use.go", demoEnrichFi)]

/-- The block the C3 witness project emits for the cross-file struct
reference. -/
def demoEnrichQ : String × String :=
  ("example.com/dto.Data",
   renderUsedEntry (buildProjectMaps demoEnrichProj).1
     (buildProjectMaps demoEnrichProj).2.1 (buildProjectMaps demoEnrichProj).2.2
     (UsedEntry.structRef { name := "example.com/dto.Data" }))

/-- Witness for C3: the cross-file struct reference is emitted and is not
the bare stub line. -/
theorem usedItems_enrichment_c3_witness :
    demoEnrichQ ∈ usedItemsSection demoEnrichProj demoEnrichFi ∧
    demoEnrichQ.2 ≠ "- " ++ "example.com/dto.Data" ++ "\n" := by
  have hmem : demoEnrichQ ∈ usedItemsSection demoEnrichProj demoEnrichFi := by
    decide
  exact ⟨hmem,
    usedItems_enrichment_c3 demoEnrichProj demoEnrichFi "example.com/dto.Data"
      (Or.inl (by decide)) demoEnrichQ hmem (by decide)⟩

/-! ## Claim C6 -/

/-- The declared name of the C6 input. -/
def demoVarName : VarName :=
  { name := "X", typeStr := "untyped int", isConst := true, constVal := "42" }

/-- A value spec carrying its own doc comment. -/
def demoValSpec : ValSpecEv :=
  { doc := some "spec comment", names := [demoVarName], values := [] }

/-- C6 counterexample: when both the declaration group and the individual
spec carry a doc comment, `extractGlobalVarInfo` records the spec's
comment, not the group's. -/
theorem gvar_comment_precedence_c6_cex :
    (extractGlobalVarInfo (some "group comment") demoValSpec 0 demoVarName).comment =
      "spec comment" ∧
    ("spec comment" : String) ≠ "group comment" := by
  constructor
  · decide
  · decide

/-- C6 amended: for struct and interface declarations the group comment
takes precedence over the individual spec comment; for global variables
and constants the individual spec comment takes precedence and the group
comment is used only when the spec has none. -/
theorem doc_comment_precedence_c6 (d : TypeDeclEv) (og : Option String)
    (g s : String) (vs : ValSpecEv) (i : Nat) (v : VarName) :
    (d.genDeclDoc = some g →
      (extractDetailedStructInfo d).comment = trimSpace g ∧
      (extractDetailedInterfaceInfo d).comment = trimSpace g) ∧
    (d.genDeclDoc = none → d.specDoc = some s →
      (extractDetailedStructInfo d).comment = trimSpace s ∧
      (extractDetailedInterfaceInfo d).comment = trimSpace s) ∧
    (vs.doc = some s → (extractGlobalVarInfo og vs i v).comment = trimSpace s) ∧
    (vs.doc = none → og = some g →
      (extractGlobalVarInfo og vs i v).comment = trimSpace g) := by
  refine ⟨?_, ?_, ?_, ?_⟩ <;> intros <;>
    simp_all [extractDetailedStructInfo, extractDetailedInterfaceInfo,
      typeDocComment, extractGlobalVarInfo]

/-- The struct declaration of the C6 witness, with both comments set. -/
def demoTypeDecl : TypeDeclEv :=
  { genDeclDoc := some "group comment", specDoc := some "spec comment",
    fqName := "example.com/p.T", kind := TypeKind.structKind }

/-- Witness for the amended C6: group comment wins for the struct, spec
comment wins for the global var, at the same pair of comments. -/
theorem doc_comment_precedence_c6_witness :
    (extractDetailedStructInfo demoTypeDecl).comment =
      trimSpace "group comment" ∧
    (extractGlobalVarInfo (some "group comment") demoValSpec 0 demoVarName).comment =
      trimSpace "spec comment" :=
  ⟨((doc_comment_precedence_c6 demoTypeDecl (some "group comment") "group comment"
      "spec comment" demoValSpec 0 demoVarName).1 rfl).1,
   (doc_comment_precedence_c6 demoTypeDecl (some "group comment") "group comment"
      "spec comment" demoValSpec 0 demoVarName).2.2.1 rfl⟩

/-! ## Claim C7 -/

/-- Identity string of the demo callee (`fn.String()`). -/
def demoFuncId : String := "func example.com/mypkg.F(a int) int"

/-- The declaration of the demo callee in another project package. -/
def demoCalleeDecl : FuncDeclEv :=
  { funcId := demoFuncId, name := "F", doc := none, hasRecv := false,
    exported := true, params := [{ names := ["a"], typeStr := "int" }],
    results := [{ names := [], typeStr := "int" }] }

/-- The project package declaring the demo callee. -/
def demoCalleePkg : Pkg :=
  { pkgPath := "example.com/mypkg",
    syntaxFiles := [{ path := "/p/mypkg/f.go", funcDecls := [demoCalleeDecl] }] }

/-- The resolved callee at each call site. -/
def demoCallUse : FuncUse :=
  { funcId := demoFuncId, pkgPath := some "example.com/mypkg", name := "F" }

/-- A file calling the same imported function at two call sites. -/
def demoCallNodes : List UNode :=
  [UNode.callSel true (some demoCallUse), UNode.callSel true (some demoCallUse)]

/-- C7: two call sites of one imported function yield two entries with
the same fully qualified name in the used-imported functions list; the
at-most-one-entry-per-name property claimed for all three lists fails
for the functions list. -/
theorem usedFunctions_dup_c7 :
    (extractUsedImportedFunctions "example.com/app" [demoCalleePkg]
        demoCallNodes).map FunctionInfo.name =
      ["example.com/mypkg.F", "example.com/mypkg.F"] ∧
    ¬ ((extractUsedImportedFunctions "example.com/app" [demoCalleePkg]
        demoCallNodes).map FunctionInfo.name).Nodup := by
  constructor
  · decide
  · decide

/-! ## Claim C2 -/

/-- Decidable equality of `Compose` results, for concrete evaluation. -/
instance exceptStringDecEq : DecidableEq (Except String String)
  | Except.ok a, Except.ok b =>
    if h : a = b then isTrue (by rw [h])
    else isFalse (fun e => h (Except.ok.inj e))
  | Except.error a, Except.error b =>
    if h : a = b then isTrue (by rw [h])
    else isFalse (fun e => h (Except.error.inj e))
  | Except.ok a, Except.error b => isFalse (fun e => Except.noConfusion e)
  | Except.error a, Except.ok b => isFalse (fun e => Except.noConfusion e)

/-- A composite literal of a first imported type. -/
def demoUNodeA : UNode :=
  UNode.compositeLit (TExpr.sel (some
    { pkgPath := some "example.com/pa", fqName := "example.com/pa.A" }))

/-- A composite literal of a second imported type. -/
def demoUNodeB : UNode :=
  UNode.compositeLit (TExpr.sel (some
    { pkgPath := some "example.com/pb", fqName := "example.com/pb.B" }))

/-- The first collected used-struct stub. -/
def demoUsedA : StructInfo := { name := "example.com/pa.A" }

/-- The second collected used-struct stub. -/
def demoUsedB : StructInfo := { name := "example.com/pb.B" }

/-- The one-file project whose used-imported list came out of the map in
the given iteration order. -/
def demoOrderProj (used : List StructInfo) : ProjectInfo :=
  [("/p/main.go", { packageName := "main", usedImportedStructs := used })]

/-- C2: the used-imported struct list is emitted in Go map iteration
order with no sort: both orders of the two collected entries are
permutations of the collected set, and `Compose` renders different bytes
for them, so re-running the pipeline is not guaranteed byte-identical. -/
theorem compose_order_dependent_c2 :
    extractUsedImportedStructInfoFromFile "example.com/app"
      [demoUNodeA, demoUNodeB] = [demoUsedA, demoUsedB] ∧
    List.Perm [demoUsedA, demoUsedB] [demoUsedB, demoUsedA] ∧
    compose (demoOrderProj [demoUsedA, demoUsedB]) "/p/main.go" ≠
      compose (demoOrderProj [demoUsedB, demoUsedA]) "/p/main.go" := by
  refine ⟨by decide, List.Perm.swap demoUsedB demoUsedA [], by decide⟩

/-! ## Claim C5 -/

/-- A source file inside the failing demo package. -/
def demoErrFile : GoFile := { path := "/p/err.go", pkgName := "errpkg" }

/-- A package that loaded with errors but still carries a syntax tree. -/
def demoErrPkg : Pkg :=
  { pkgPath := "example.com/errpkg", errors := ["missing dependency"],
    syntaxFiles := [demoErrFile] }

/-- The project map `parseProject` builds for the failing package. -/
def demoErrProjInfo : ProjectInfo :=
  [("/p/err.go", extractFileInfoForFile demoErrFile demoErrPkg [demoErrPkg])]

/-- C5 counterexample: a package that loaded with errors is not excluded:
`ParseProject` succeeds and the errored package's file is present in the
returned project map. -/
theorem parseProject_keeps_failed_c5_cex :
    demoErrPkg.errors ≠ [] ∧
    parseProject (Except.ok [demoErrPkg]) "/p" = Except.ok demoErrProjInfo ∧
    mapFind demoErrProjInfo "/p/err.go" ≠ none := by
  refine ⟨by decide, by rfl, by decide⟩

/-- C5 amended: `ParseProject` fails only when the frontend load itself
fails (wrapping that error) or when zero packages load (the
`no packages found` error); with at least one package it succeeds, and
packages that loaded with errors are logged and still processed: every
file of every package, errored or not, appears in the returned map. -/
theorem parseProject_partial_failure_c5 (pkgs : List Pkg) (e root : String) :
    parseProject (Except.error e) root =
      Except.error ("failed to load packages: " ++ e) ∧
    parseProject (Except.ok []) root =
      Except.error ("no packages found in " ++ root) ∧
    (pkgs ≠ [] → ∃ m, parseProject (Except.ok pkgs) root = Except.ok m ∧
      ∀ pkg ∈ pkgs, ∀ f ∈ pkg.syntaxFiles, mapFind m f.path ≠ none) := by
  refine ⟨rfl, rfl, ?_⟩
  intro hne
  refine ⟨pkgs.foldl
      (fun acc pkg => pkg.syntaxFiles.foldl
        (fun acc2 file => mapAssign acc2 file.path (extractFileInfoForFile file pkg pkgs))
        acc)
      [], ?_, ?_⟩
  · simp [parseProject, hne]
  · intro pkg hpkg f hf
    rw [Ne, mapFind_eq_none_iff, not_not]
    exact (mapAssign_fold2_keys Pkg.syntaxFiles GoFile.path
      (fun pkg2 file => extractFileInfoForFile file pkg2 pkgs) pkgs [] f.path).mpr
      (Or.inr ⟨pkg, hpkg, List.mem_map_of_mem GoFile.path hf⟩)

/-- Witness for the amended C5 at the failing demo package. -/
theorem parseProject_partial_failure_c5_witness :
    parseProject (Except.error "boom") "/p" =
      Except.error ("failed to load packages: " ++ "boom") ∧
    (∃ m, parseProject (Except.ok [demoErrPkg]) "/p" = Except.ok m ∧
      ∀ pkg ∈ [demoErrPkg], ∀ f ∈ pkg.syntaxFiles, mapFind m f.path ≠ none) :=
  ⟨(parseProject_partial_failure_c5 [demoErrPkg] "boom" "/p").1,
   (parseProject_partial_failure_c5 [demoErrPkg] "boom" "/p").2.2 (by decide)⟩

/-! ## Claim C8 -/

/-- Folding `addPkgNode` over packages none of which carries a given path
leaves that key untouched. -/
theorem addPkgNode_fold_notmem (pkgs : List Pkg) (acc : List (String × Node))
    (k : String) (h : k ∉ pkgs.map Pkg.pkgPath) :
    mapFind (pkgs.foldl addPkgNode acc) k = mapFind acc k := by
  induction pkgs generalizing acc with
  | nil => rfl
  | cons q rest ih =>
    simp only [List.map_cons, List.mem_cons] at h
    push_neg at h
    rw [List.foldl_cons, ih _ h.2]
    unfold addPkgNode
    split_ifs with hq
    · have hne : ¬ q.pkgPath = k := fun e => h.1 e.symm
      simp [mapAssign, mapFind, hne]
    · rfl

/-- An error-free package among distinct package paths gets exactly its
node. -/
theorem addPkgNode_fold_clean (pkgs : List Pkg) (acc : List (String × Node))
    (pkg : Pkg) (hN : (pkgs.map Pkg.pkgPath).Nodup) (hmem : pkg ∈ pkgs)
    (hok : pkg.errors = []) :
    mapFind (pkgs.foldl addPkgNode acc) pkg.pkgPath = some (mkGraphNode pkg) := by
  induction pkgs generalizing acc with
  | nil => cases hmem
  | cons q rest ih =>
    rw [List.map_cons, List.nodup_cons] at hN
    rcases List.mem_cons.mp hmem with rfl | hmem2
    · rw [List.foldl_cons, addPkgNode_fold_notmem rest _ _ hN.1]
      unfold addPkgNode
      rw [if_pos hok]
      simp [mapAssign, mapFind]
    · exact ih _ hN.2 hmem2

/-- A package with load errors, among distinct package paths, gets no
node. -/
theorem addPkgNode_fold_err (pkgs : List Pkg) (acc : List (String × Node))
    (pkg : Pkg) (hN : (pkgs.map Pkg.pkgPath).Nodup) (hmem : pkg ∈ pkgs)
    (hbad : pkg.errors ≠ []) (hacc : mapFind acc pkg.pkgPath = none) :
    mapFind (pkgs.foldl addPkgNode acc) pkg.pkgPath = none := by
  induction pkgs generalizing acc with
  | nil => exact hacc
  | cons q rest ih =>
    rw [List.map_cons, List.nodup_cons] at hN
    rcases List.mem_cons.mp hmem with rfl | hmem2
    · rw [List.foldl_cons, addPkgNode_fold_notmem rest _ _ hN.1]
      unfold addPkgNode
      rw [if_neg hbad]
      exact hacc
    · rw [List.foldl_cons]
      refine ih _ hN.2 hmem2 ?_
      have hne : q.pkgPath ≠ pkg.pkgPath := by
        intro e
        exact hN.1 (e ▸ List.mem_map_of_mem Pkg.pkgPath hmem2)
      unfold addPkgNode
      split_ifs with hq
      · simpa [mapAssign, mapFind, hne] using hacc
      · exact hacc

/-- C8: `BuildGraph` creates no node for a package that failed to load
while the remaining packages are still built, and every created node's
`DependsOn` is exactly the key set of the package's import map: the
distinct package paths imported by its files, with no duplicates. -/
theorem buildGraph_c8 (pkgs : List Pkg) (pkg : Pkg)
    (hN : (pkgs.map Pkg.pkgPath).Nodup) (hmem : pkg ∈ pkgs) :
    (pkg.errors ≠ [] → mapFind (buildGraph pkgs).nodes pkg.pkgPath = none) ∧
    (pkg.errors = [] →
      mapFind (buildGraph pkgs).nodes pkg.pkgPath = some (mkGraphNode pkg) ∧
      (mkGraphNode pkg).dependsOn = pkg.importPaths ∧
      (pkg.importPaths.Nodup → (mkGraphNode pkg).dependsOn.Nodup)) := by
  constructor
  · intro hbad
    exact addPkgNode_fold_err pkgs [] pkg hN hmem hbad rfl
  · intro hok
    exact ⟨addPkgNode_fold_clean pkgs [] pkg hN hmem hok, rfl, fun h => h⟩

/-- The exported function of the clean C8 witness package. -/
def demoCleanFuncDecl : FuncDeclEv :=
  { funcId := "func example.com/clean.Foo()", name := "Foo", doc := none,
    hasRecv := false, exported := true, params := [], results := [] }

/-- The source file of the clean C8 witness package. -/
def demoCleanFile : GoFile :=
  { path := "/p/clean/a.go", funcDecls := [demoCleanFuncDecl] }

/-- A clean package importing two distinct paths, for the C8 witness. -/
def demoCleanPkg : Pkg :=
  { pkgPath := "example.com/clean", goFiles := ["/p/clean/a.go"],
    importPaths := ["fmt", "example.com/errpkg"],
    syntaxFiles := [demoCleanFile] }

/-- Witness for C8 over a two-package project: the failed package has no
node, the clean one has its node with a duplicate-free dependency list. -/
theorem buildGraph_c8_witness :
    mapFind (buildGraph [demoErrPkg, demoCleanPkg]).nodes "example.com/errpkg" = none ∧
    mapFind (buildGraph [demoErrPkg, demoCleanPkg]).nodes "example.com/clean" =
      some (mkGraphNode demoCleanPkg) ∧
    (mkGraphNode demoCleanPkg).dependsOn.Nodup := by
  have h1 := (buildGraph_c8 [demoErrPkg, demoCleanPkg] demoErrPkg
    (by decide) (by simp)).1 (by decide)
  have h2 := (buildGraph_c8 [demoErrPkg, demoCleanPkg] demoCleanPkg
    (by decide) (by simp)).2 rfl
  exact ⟨h1, h2.1, h2.2.2 (by decide)⟩

end Ast2LLM
